import Mathlib

/-
Formal model of the Timeline Bookmark Tool (App.tsx).

The application keeps a list of Bookmark records in React state, persists
it as a single JSON blob under the AsyncStorage key "bookmarks", and
reacts to a native floating-button event by capturing the foreground app
name and a locale-formatted timestamp.  This file embeds the data model,
the JSON persistence format written by `JSON.stringify` and read back by
`JSON.parse`, and every state-changing operation of the UI controller.
-/

/-- The bookmark record saved by the app (`interface Bookmark` in App.tsx):
identifier, user note, source-app name, and locale-formatted timestamp,
all strings. -/
structure Bookmark where
  id : String
  note : String
  app : String
  timestamp : String
deriving DecidableEq

/-- The capture context set by the floating-button event
(`setContext({ app: foregroundApp, timestamp })` in App.tsx). -/
structure Context where
  app : String
  timestamp : String
deriving DecidableEq

/-! ## Decimal rendering of `Date.now()`

The bookmark id is `Date.now().toString()`: the decimal digit string of a
nonnegative integer (milliseconds since the epoch).  `toDecimal` embeds
JavaScript `Number.prototype.toString()` on natural numbers. -/

/-- One decimal digit character, `'0'`..`'9'`. -/
def digitChar : Nat → Char
  | 0 => '0' | 1 => '1' | 2 => '2' | 3 => '3' | 4 => '4'
  | 5 => '5' | 6 => '6' | 7 => '7' | 8 => '8' | _ => '9'

/-- Decimal digits with explicit fuel (structural recursion, so the
kernel can evaluate it); `n` has at most `n + 1` digits. -/
def toDecimalAux : Nat → Nat → List Char
  | 0, _ => []
  | fuel + 1, n =>
    if n < 10 then [digitChar n]
    else toDecimalAux fuel (n / 10) ++ [digitChar (n % 10)]

/-- Decimal digit list of a natural number, most significant first. -/
def toDecimal (n : Nat) : List Char := toDecimalAux (n + 1) n

/-- `Date.now().toString()` : the decimal string of the clock reading. -/
def natToString (n : Nat) : String :=
  String.mk (toDecimal n)

/-- Inverse of `digitChar` on digits. -/
def digitVal (c : Char) : Nat := c.toNat - 48

/-! ## The JSON blob

`handleSaveNote` persists the list with
`AsyncStorage.setItem('bookmarks', JSON.stringify(updatedBookmarks))` and
the mount effect reads it back with `JSON.parse`.  The encoder below
reproduces `JSON.stringify` on arrays of `Bookmark` records: objects with
the keys `id`, `note`, `app`, `timestamp` in insertion order, strings
escaped per ECMA-262 `QuoteJSONString` (short escapes for `"`, `\`,
backspace, form feed, newline, carriage return, tab; `\u00XX` for the
remaining control characters; everything else literal). -/

/-- Lowercase hexadecimal digit character, `'0'`..`'f'`. -/
def hexDigitChar : Nat → Char
  | 0 => '0' | 1 => '1' | 2 => '2' | 3 => '3' | 4 => '4'
  | 5 => '5' | 6 => '6' | 7 => '7' | 8 => '8' | 9 => '9'
  | 10 => 'a' | 11 => 'b' | 12 => 'c' | 13 => 'd' | 14 => 'e' | _ => 'f'

/-- JSON escaping of one character, per `JSON.stringify`. -/
def escapeChar (c : Char) : List Char :=
  if c = '\"' then ['\\', '\"']
  else if c = '\\' then ['\\', '\\']
  else if c = '\x08' then ['\\', 'b']
  else if c = '\x0c' then ['\\', 'f']
  else if c = '\n' then ['\\', 'n']
  else if c = '\r' then ['\\', 'r']
  else if c = '\t' then ['\\', 't']
  else if c.toNat < 0x20 then
    ['\\', 'u', '0', '0', hexDigitChar (c.toNat / 16), hexDigitChar (c.toNat % 16)]
  else [c]

/-- A JSON string literal: quote, escaped characters, quote. -/
def encodeString (s : String) : List Char :=
  '\"' :: (s.data.flatMap escapeChar ++ ['\"'])

/-- One `"key":"value"` member of the serialized bookmark object. -/
def encodeField (key val : String) : List Char :=
  encodeString key ++ ':' :: encodeString val

/-- `JSON.stringify` of one bookmark: the four members in insertion
order, as created in `handleSaveNote`. -/
def encodeBookmark (b : Bookmark) : List Char :=
  '{' :: (encodeField "id" b.id ++ ',' :: encodeField "note" b.note ++
    ',' :: encodeField "app" b.app ++ ',' :: encodeField "timestamp" b.timestamp) ++ ['}']

/-- Comma-separated array elements. -/
def encodeItems : List Bookmark → List Char
  | [] => []
  | [b] => encodeBookmark b
  | b :: rest => encodeBookmark b ++ ',' :: encodeItems rest

/-- `JSON.stringify(updatedBookmarks)`: the whole persisted blob. -/
def encodeBookmarks (l : List Bookmark) : String :=
  String.mk ('[' :: encodeItems l ++ [']'])

/-! ## Reading the blob back

`JSON.parse` applied to a blob written by `encodeBookmarks`.  The decoder
below models `JSON.parse` on exactly the grammar `JSON.stringify` emits
for this program's data (no whitespace, the four fixed keys in order):
this is the only shape of blob the program ever persists, and the decoder
follows `JSON.parse`'s treatment of string escapes on it.  `none` models
a thrown `SyntaxError` (caught by `loadBookmarks`). -/

/-- Value of one hexadecimal digit character; `JSON.parse` accepts both
letter cases. -/
def hexVal (c : Char) : Option Nat :=
  if '0' ≤ c ∧ c ≤ '9' then some (c.toNat - '0'.toNat)
  else if 'a' ≤ c ∧ c ≤ 'f' then some (c.toNat - 'a'.toNat + 10)
  else if 'A' ≤ c ∧ c ≤ 'F' then some (c.toNat - 'A'.toNat + 10)
  else none

/-- Parse the body of a JSON string literal (opening quote already
consumed) up to and including the closing quote; returns the decoded
characters and the remaining input. -/
def parseStringBody : List Char → Option (List Char × List Char)
  | [] => none
  | c :: rest =>
    if c = '\"' then some ([], rest)
    else if c = '\\' then
      match rest with
      | [] => none
      | e :: rest2 =>
        if e = '\"' then (parseStringBody rest2).map (fun p => ('\"' :: p.1, p.2))
        else if e = '\\' then (parseStringBody rest2).map (fun p => ('\\' :: p.1, p.2))
        else if e = '/' then (parseStringBody rest2).map (fun p => ('/' :: p.1, p.2))
        else if e = 'b' then (parseStringBody rest2).map (fun p => ('\x08' :: p.1, p.2))
        else if e = 'f' then (parseStringBody rest2).map (fun p => ('\x0c' :: p.1, p.2))
        else if e = 'n' then (parseStringBody rest2).map (fun p => ('\n' :: p.1, p.2))
        else if e = 'r' then (parseStringBody rest2).map (fun p => ('\r' :: p.1, p.2))
        else if e = 't' then (parseStringBody rest2).map (fun p => ('\t' :: p.1, p.2))
        else if e = 'u' then
          match rest2 with
          | h1 :: h2 :: h3 :: h4 :: rest3 =>
            match hexVal h1, hexVal h2, hexVal h3, hexVal h4 with
            | some a, some b, some c3, some d =>
              (parseStringBody rest3).map (fun p =>
                (Char.ofNat (4096 * a + 256 * b + 16 * c3 + d) :: p.1, p.2))
            | _, _, _, _ => none
          | _ => none
        else none
    else if c.toNat < 0x20 then none
    else (parseStringBody rest).map (fun p => (c :: p.1, p.2))

/-- Match an exact literal prefix, returning the rest of the input. -/
def expects : List Char → List Char → Option (List Char)
  | [], input => some input
  | _ :: _, [] => none
  | p :: ps, c :: cs => if c = p then expects ps cs else none

/-- Parse one serialized bookmark object. -/
def parseBookmark (input : List Char) : Option (Bookmark × List Char) :=
  match expects ['{', '\"', 'i', 'd', '\"', ':', '\"'] input with
  | none => none
  | some r1 =>
    match parseStringBody r1 with
    | none => none
    | some (i, r2) =>
      match expects [',', '\"', 'n', 'o', 't', 'e', '\"', ':', '\"'] r2 with
      | none => none
      | some r3 =>
        match parseStringBody r3 with
        | none => none
        | some (n, r4) =>
          match expects [',', '\"', 'a', 'p', 'p', '\"', ':', '\"'] r4 with
          | none => none
          | some r5 =>
            match parseStringBody r5 with
            | none => none
            | some (a, r6) =>
              match expects
                  [',', '\"', 't', 'i', 'm', 'e', 's', 't', 'a', 'm', 'p', '\"', ':', '\"'] r6 with
              | none => none
              | some r7 =>
                match parseStringBody r7 with
                | none => none
                | some (t, r8) =>
                  match expects ['}'] r8 with
                  | none => none
                  | some r9 =>
                    some (⟨String.mk i, String.mk n, String.mk a, String.mk t⟩, r9)

/-- Parse a nonempty comma-separated sequence of bookmark objects
followed by the closing bracket.  The fuel argument bounds the number of
elements; callers pass the input length. -/
def parseItems : Nat → List Char → Option (List Bookmark × List Char)
  | 0, _ => none
  | fuel + 1, input => do
    let (b, rest) ← parseBookmark input
    match rest with
    | ',' :: rest2 => do
      let (l, rest3) ← parseItems fuel rest2
      pure (b :: l, rest3)
    | ']' :: rest2 => pure ([b], rest2)
    | _ => none

/-- `JSON.parse` of the persisted blob, restricted to the grammar the
program writes; `none` models a parse failure. -/
def decodeBookmarks (s : String) : Option (List Bookmark) :=
  match s.data with
  | [] => none
  | c :: rest =>
    if c = '[' then
      if rest = [']'] then some []
      else
        match parseItems rest.length rest with
        | some (l, []) => some l
        | _ => none
    else none

/-- Decimal value of a digit list (used only to invert `toDecimal`). -/
def decVal (l : List Char) : Nat :=
  l.foldl (fun a c => a * 10 + digitVal c) 0

/-! ## Storage and component state

`AsyncStorage` is a string key-value store; the program uses the single
key `'bookmarks'`.  The component state is the six `useState` hooks of
`App`. -/

/-- Model of `AsyncStorage`: key-value pairs, most recent write first. -/
abbrev Storage := List (String × String)

/-- `AsyncStorage.getItem`: the most recently written value for a key. -/
def getItem (st : Storage) (k : String) : Option String :=
  (st.find? (fun p => p.1 == k)).map (fun p => p.2)

/-- `AsyncStorage.setItem`. -/
def setItem (st : Storage) (k v : String) : Storage :=
  (k, v) :: st

/-- The React state of `App`: the six `useState` hooks. -/
structure AppState where
  hasPermission : Bool
  isServiceRunning : Bool
  modalVisible : Bool
  currentNote : String
  context : Option Context
  bookmarks : List Bookmark
deriving DecidableEq

/-- The initial hook values (`useState(false)`, `useState('')`,
`useState(null)`, `useState([])`). -/
def initState : AppState :=
  { hasPermission := false, isServiceRunning := false, modalVisible := false,
    currentNote := "", context := none, bookmarks := [] }

/-- The calls the controller can issue to the native
`FloatingWidgetModule`. -/
inductive NativeCall
  | hasOverlayPermission
  | isServiceRunningQuery
  | getForegroundApp
  | requestOverlayPermission
  | startFloatingWidgetService
  | stopFloatingWidgetService
deriving DecidableEq

/-! ## The operations of the UI controller

Asynchronous native results are passed as parameters; `none` models a
call that threw (every such call sits in a `try`/`catch` whose handler
logs or alerts and changes nothing further). -/

/-- The mount effect `loadBookmarks`: read the blob under `'bookmarks'`
and replace the list when a non-empty blob is present and parses.  A
missing key, an empty (falsy) blob, a storage read failure or a
`JSON.parse` failure leaves the state unchanged (the `catch` only
logs). -/
def loadBookmarks (st : Storage) (s : AppState) : AppState :=
  match getItem st "bookmarks" with
  | none => s
  | some blob =>
    if blob = "" then s
    else
      match decodeBookmarks blob with
      | none => s
      | some l => { s with bookmarks := l }

/-- The mount effect `checkStatus`: mirror the native permission flag,
then the service flag only when permission is granted.  `perm = none`
models `hasOverlayPermission` throwing (nothing updates); `svc = none`
models `isServiceRunning` throwing (the permission update before it is
kept). -/
def checkStatus (perm svc : Option Bool) (s : AppState) : AppState :=
  match perm with
  | none => s
  | some p =>
    if p then
      match svc with
      | none => { s with hasPermission := p }
      | some running => { s with hasPermission := p, isServiceRunning := running }
    else { s with hasPermission := p }

/-- The `onFloatingButtonPress` listener: query the foreground app, take
`new Date().toLocaleString()` (the `timestamp` parameter), record the
capture context and open the modal.  `foregroundApp = none` models
`getForegroundApp` throwing: the catch shows an alert and nothing
changes. -/
def onFloatingButtonPress (foregroundApp : Option String) (timestamp : String)
    (s : AppState) : AppState :=
  match foregroundApp with
  | none => s
  | some app => { s with context := some ⟨app, timestamp⟩, modalVisible := true }

/-- `requestPermission`: mirror the flag returned by the native request
(an alert is shown when denied); `none` models a throw (caught, no state
change). -/
def requestPermission (granted : Option Bool) (s : AppState) : AppState :=
  match granted with
  | none => s
  | some g => { s with hasPermission := g }

/-- `toggleService`: stop when running; start when permission is held;
otherwise fall through to `requestPermission`.  Also returns the calls
issued to the native module. -/
def toggleService (granted : Option Bool) (s : AppState) : AppState × List NativeCall :=
  if s.isServiceRunning then
    ({ s with isServiceRunning := false }, [NativeCall.stopFloatingWidgetService])
  else if s.hasPermission then
    ({ s with isServiceRunning := true }, [NativeCall.startFloatingWidgetService])
  else
    (requestPermission granted s, [NativeCall.requestOverlayPermission])

/-- Outcome of one `handleSaveNote` call. -/
inductive SaveOutcome
  | noOp
  | saved
  | writeFailed
deriving DecidableEq

/-- `handleSaveNote` at clock reading `now` (`Date.now()`), with
`writeOk` telling whether `AsyncStorage.setItem` succeeds.  The guard
returns early on an empty (falsy) note or a missing context.  Otherwise
the new bookmark is prepended and `setBookmarks` runs *before* the write
is awaited: when the write throws, the catch shows an alert, so the new
bookmark stays in React state while the note, context, modal and storage
keep their previous values. -/
def handleSaveNote (now : Nat) (writeOk : Bool) (s : AppState) (st : Storage) :
    AppState × Storage × SaveOutcome :=
  if s.currentNote = "" then (s, st, SaveOutcome.noOp)
  else
    match s.context with
    | none => (s, st, SaveOutcome.noOp)
    | some ctx =>
      let newBookmark : Bookmark :=
        { id := natToString now, note := s.currentNote, app := ctx.app,
          timestamp := ctx.timestamp }
      let updatedBookmarks := newBookmark :: s.bookmarks
      if writeOk then
        ({ s with
            bookmarks := updatedBookmarks, currentNote := "", context := none,
            modalVisible := false },
          setItem st "bookmarks" (encodeBookmarks updatedBookmarks), SaveOutcome.saved)
      else
        ({ s with bookmarks := updatedBookmarks }, st, SaveOutcome.writeFailed)

/-- The note `TextInput`: `onChangeText=\{setCurrentNote\}`. -/
def setNote (text : String) (s : AppState) : AppState :=
  { s with currentNote := text }

/-- The modal Cancel button and `onRequestClose`:
`setModalVisible(false)`. -/
def closeModal (s : AppState) : AppState :=
  { s with modalVisible := false }

/-- One user-visible operation after mount, with the environment inputs
it consumes (native results, the clock, typed text). -/
inductive Op
  | buttonPress (foregroundApp : Option String) (timestamp : String)
  | requestPerm (granted : Option Bool)
  | toggle (granted : Option Bool)
  | save (now : Nat) (writeOk : Bool)
  | setNoteText (text : String)
  | closeModal
deriving DecidableEq

/-- Apply one operation to the component state and storage, collecting
the calls made to the native module. -/
def applyOp (op : Op) (s : AppState) (st : Storage) :
    AppState × Storage × List NativeCall :=
  match op with
  | Op.buttonPress fg ts => (onFloatingButtonPress fg ts s, st, [NativeCall.getForegroundApp])
  | Op.requestPerm g => (requestPermission g s, st, [NativeCall.requestOverlayPermission])
  | Op.toggle g =>
    let r := toggleService g s
    (r.1, st, r.2)
  | Op.save now writeOk =>
    let r := handleSaveNote now writeOk s st
    (r.1, r.2.1, [])
  | Op.setNoteText text => (setNote text s, st, [])
  | Op.closeModal => (closeModal s, st, [])

/-- Run a sequence of operations. -/
def run : List Op → AppState → Storage → AppState × Storage
  | [], s, st => (s, st)
  | op :: ops, s, st =>
    let r := applyOp op s st
    run ops r.1 r.2.1

/-- The state after mount: the two one-shot `useEffect` hooks read the
persisted list and mirror native status, starting from the initial hook
values. -/
def mount (st : Storage) (perm svc : Option Bool) : AppState :=
  checkStatus perm svc (loadBookmarks st initState)

/-- The in-memory list and the persisted blob agree: the blob stored
under `'bookmarks'` deserializes to the in-memory list. -/
abbrev synced (s : AppState) (st : Storage) : Prop :=
  (getItem st "bookmarks").bind decodeBookmarks = some s.bookmarks

/-- A concrete pre-save state: the modal is open with note text `"n"`
and a capture context, no bookmarks yet. -/
def exS0 : AppState :=
  { hasPermission := true, isServiceRunning := true, modalVisible := true,
    currentNote := "n", context := some ⟨"A", "t1"⟩, bookmarks := [] }

/-- A concrete storage holding the serialized empty list. -/
def exSt0 : Storage := [("bookmarks", encodeBookmarks [])]

/-- Two saves at the same clock reading `5`, with fresh note text and a
fresh capture event in between. -/
def exOps3 : List Op :=
  [Op.save 5 true, Op.setNoteText "b", Op.buttonPress (some "B") "t2", Op.save 5 true]


/-- The clock readings consumed by the save operations of a run. -/
def saveTimes : List Op → List Nat
  | [] => []
  | Op.save now _ :: ops => now :: saveTimes ops
  | _ :: ops => saveTimes ops

/-- Like `exOps3` but with distinct clock readings `5` and `6`. -/
def exOps4 : List Op :=
  [Op.save 5 true, Op.setNoteText "b", Op.buttonPress (some "B") "t2", Op.save 6 true]

/-! ## Number and round-trip lemmas -/

theorem digitVal_digitChar (d : Nat) (h : d < 10) :
    digitVal (digitChar d) = d := by
  interval_cases d <;> rfl

theorem decVal_cons_eq (l : List Char) (a : Nat) :
    l.foldl (fun a c => a * 10 + digitVal c) a =
      a * 10 ^ l.length + l.foldl (fun a c => a * 10 + digitVal c) 0 := by
  induction l generalizing a with
  | nil => simp
  | cons c t ih =>
    simp only [List.foldl_cons, List.length_cons, Nat.zero_mul, Nat.zero_add]
    rw [ih (a * 10 + digitVal c), ih (digitVal c)]
    ring

theorem decVal_toDecimalAux : ∀ fuel n, n < fuel → decVal (toDecimalAux fuel n) = n := by
  intro fuel
  induction fuel with
  | zero => intro n h; omega
  | succ f ih =>
    intro n h
    by_cases h10 : n < 10
    · simp [toDecimalAux, h10, decVal, digitVal_digitChar n h10]
    · have hrec := ih (n / 10) (by omega)
      simp only [toDecimalAux, h10, if_false, ite_false]
      simp only [decVal, List.foldl_append, List.foldl_cons, List.foldl_nil] at hrec ⊢
      rw [hrec, digitVal_digitChar (n % 10) (Nat.mod_lt n (by omega))]
      omega

theorem decVal_toDecimal (n : Nat) : decVal (toDecimal n) = n :=
  decVal_toDecimalAux (n + 1) n (Nat.lt_succ_self n)

theorem natToString_injective : Function.Injective natToString := by
  intro m n h
  have hd : toDecimal m = toDecimal n := by
    simpa [natToString, String.ext_iff] using h
  have := decVal_toDecimal m
  rw [hd, decVal_toDecimal n] at this
  exact this.symm

/-! ## Round trip: the decoder inverts the encoder -/

theorem char_ofNat_toNat (c : Char) (h : c.toNat < 0xd800) : Char.ofNat c.toNat = c := by
  have hv : c.toNat.isValidChar := Or.inl h
  apply Char.eq_of_val_eq
  simp [Char.ofNat, hv, Char.ofNatAux]
  apply UInt32.eq_of_toBitVec_eq
  apply BitVec.eq_of_toNat_eq
  simp [Char.toNat, UInt32.toNat]

theorem hexVal_hexDigitChar (d : Nat) (h : d < 16) : hexVal (hexDigitChar d) = some d := by
  interval_cases d <;> rfl

theorem expects_append (pat rest : List Char) : expects pat (pat ++ rest) = some rest := by
  induction pat with
  | nil => rfl
  | cons p ps ih => simp [expects, ih]


theorem parseStringBody_escape (s rest : List Char) :
    parseStringBody (s.flatMap escapeChar ++ '\"' :: rest) = some (s, rest) := by
  induction s with
  | nil =>
    rw [List.flatMap_nil, List.nil_append, parseStringBody.eq_def]
    rfl
  | cons c t ih =>
    rw [List.flatMap_cons, List.append_assoc]
    by_cases h1 : c = '\"'
    · subst h1
      rw [show escapeChar '\"' = ['\\', '\"'] from rfl]
      rw [List.cons_append, List.cons_append, List.nil_append, parseStringBody.eq_def]
      simp [ih]
    · by_cases h2 : c = '\\'
      · subst h2
        rw [show escapeChar '\\' = ['\\', '\\'] from rfl]
        rw [List.cons_append, List.cons_append, List.nil_append, parseStringBody.eq_def]
        simp [ih]
      · by_cases h3 : c = '\x08'
        · subst h3
          rw [show escapeChar '\x08' = ['\\', 'b'] from rfl]
          rw [List.cons_append, List.cons_append, List.nil_append, parseStringBody.eq_def]
          simp [ih]
        · by_cases h4 : c = '\x0c'
          · subst h4
            rw [show escapeChar '\x0c' = ['\\', 'f'] from rfl]
            rw [List.cons_append, List.cons_append, List.nil_append, parseStringBody.eq_def]
            simp [ih]
          · by_cases h5 : c = '\n'
            · subst h5
              rw [show escapeChar '\n' = ['\\', 'n'] from rfl]
              rw [List.cons_append, List.cons_append, List.nil_append, parseStringBody.eq_def]
              simp [ih]
            · by_cases h6 : c = '\r'
              · subst h6
                rw [show escapeChar '\r' = ['\\', 'r'] from rfl]
                rw [List.cons_append, List.cons_append, List.nil_append, parseStringBody.eq_def]
                simp [ih]
              · by_cases h7 : c = '\t'
                · subst h7
                  rw [show escapeChar '\t' = ['\\', 't'] from rfl]
                  rw [List.cons_append, List.cons_append, List.nil_append, parseStringBody.eq_def]
                  simp [ih]
                · by_cases h8 : c.toNat < 0x20
                  · have hv1 : c.toNat / 16 < 16 := by omega
                    have hv2 : c.toNat % 16 < 16 := by omega
                    have he : escapeChar c = ['\\', 'u', '0', '0',
                        hexDigitChar (c.toNat / 16), hexDigitChar (c.toNat % 16)] := by
                      simp [escapeChar, h1, h2, h3, h4, h5, h6, h7, h8]
                    rw [he]
                    simp only [List.cons_append, List.nil_append]
                    rw [parseStringBody.eq_def]
                    simp [hexVal_hexDigitChar _ hv1, hexVal_hexDigitChar _ hv2,
                      show hexVal '0' = some 0 from rfl, ih]
                    rw [show 16 * (c.toNat / 16) + c.toNat % 16 = c.toNat by omega]
                    exact char_ofNat_toNat c (by omega)
                  · have he : escapeChar c = [c] := by
                      simp [escapeChar, h1, h2, h3, h4, h5, h6, h7, h8]
                    rw [he]
                    simp only [List.cons_append, List.nil_append]
                    rw [parseStringBody.eq_def]
                    simp [h1, h2, h8, ih]

theorem parseBookmark_encode (b : Bookmark) (rest : List Char) :
    parseBookmark (encodeBookmark b ++ rest) = some (b, rest) := by
  have hsplit : encodeBookmark b ++ rest =
      ['{', '\"', 'i', 'd', '\"', ':', '\"'] ++ (b.id.data.flatMap escapeChar ++ '\"' ::
        ([',', '\"', 'n', 'o', 't', 'e', '\"', ':', '\"'] ++
          (b.note.data.flatMap escapeChar ++ '\"' ::
            ([',', '\"', 'a', 'p', 'p', '\"', ':', '\"'] ++
              (b.app.data.flatMap escapeChar ++ '\"' ::
                ([',', '\"', 't', 'i', 'm', 'e', 's', 't', 'a', 'm', 'p', '\"', ':', '\"'] ++
                  (b.timestamp.data.flatMap escapeChar ++ '\"' :: ('}' :: rest)))))))) := by
    rw [encodeBookmark, encodeField, encodeField, encodeField, encodeField,
      show encodeString "id" = ['\"', 'i', 'd', '\"'] from rfl,
      show encodeString "note" = ['\"', 'n', 'o', 't', 'e', '\"'] from rfl,
      show encodeString "app" = ['\"', 'a', 'p', 'p', '\"'] from rfl,
      show encodeString "timestamp" =
        ['\"', 't', 'i', 'm', 'e', 's', 't', 'a', 'm', 'p', '\"'] from rfl,
      encodeString, encodeString, encodeString, encodeString]
    simp
  rw [hsplit]
  simp only [parseBookmark, expects_append, parseStringBody_escape]
  rfl

theorem parseItems_encode (l : List Bookmark) (hne : l ≠ []) :
    ∀ fuel, l.length ≤ fuel → ∀ rest,
      parseItems fuel (encodeItems l ++ ']' :: rest) = some (l, rest) := by
  induction l with
  | nil => exact absurd rfl hne
  | cons b t ih =>
    intro fuel hf rest
    match fuel, hf with
    | fuel + 1, hf =>
      cases t with
      | nil =>
        rw [show encodeItems [b] = encodeBookmark b from rfl]
        simp [parseItems, parseBookmark_encode]
      | cons c u =>
        rw [show encodeItems (b :: c :: u) = encodeBookmark b ++ ',' :: encodeItems (c :: u)
          from rfl]
        have hrec := ih (by simp) fuel
          (by simp only [List.length_cons] at hf ⊢; omega) rest
        simp only [List.append_assoc, List.cons_append]
        simp [parseItems, parseBookmark_encode, hrec]

theorem length_le_encodeItems (l : List Bookmark) : l.length ≤ (encodeItems l).length := by
  induction l with
  | nil => simp [encodeItems]
  | cons b t ih =>
    cases t with
    | nil => simp [encodeItems, encodeBookmark]
    | cons c u =>
      rw [show encodeItems (b :: c :: u) = encodeBookmark b ++ ',' :: encodeItems (c :: u)
        from rfl]
      have ih' : u.length + 1 ≤ (encodeItems (c :: u)).length := by
        simpa using ih
      have hb : 1 ≤ (encodeBookmark b).length := by simp [encodeBookmark]
      simp only [List.length_append, List.length_cons]
      omega

/-- `JSON.parse` inverts `JSON.stringify` on every bookmark list. -/
theorem decode_encode (l : List Bookmark) : decodeBookmarks (encodeBookmarks l) = some l := by
  cases l with
  | nil => rfl
  | cons b t =>
    have hlen : (b :: t).length ≤ (encodeItems (b :: t) ++ [']']).length := by
      have h1 := length_le_encodeItems (b :: t)
      simp only [List.length_append, List.length_cons] at h1 ⊢
      omega
    have hparse := parseItems_encode (b :: t) (by simp)
      ((encodeItems (b :: t) ++ [']']).length) hlen []
    obtain ⟨Z, hZ⟩ : ∃ Z, encodeItems (b :: t) = '{' :: Z := by
      cases t <;> exact ⟨_, rfl⟩
    have hne2 : encodeItems (b :: t) ++ [']'] ≠ [']'] := by
      rw [hZ]
      simp
    have hdata : (encodeBookmarks (b :: t)).data = '[' :: (encodeItems (b :: t) ++ [']']) := rfl
    rw [decodeBookmarks, hdata]
    simp only [if_pos rfl, if_neg hne2]
    rw [show encodeItems (b :: t) ++ [']'] = encodeItems (b :: t) ++ ']' :: [] from rfl] at hparse
    rw [hparse]
    simp

/-! ## Supporting lemmas about the operations -/

theorem getItem_setItem (st : Storage) (k v : String) :
    getItem (setItem st k v) k = some v := by
  simp [getItem, setItem]

theorem encodeBookmarks_ne_empty (l : List Bookmark) : encodeBookmarks l ≠ "" := by
  simp only [encodeBookmarks, ne_eq]
  intro h
  have := congrArg String.data h
  simp at this

/-! ## The claims -/

/-- C4: the bookmark sequence is newest first — whenever a save goes
through its guard (non-empty note, capture context present), the
resulting in-memory list is the new bookmark followed by the prior
bookmarks in their previous order, for either write outcome. -/
theorem C4_newest_first (now : Nat) (writeOk : Bool) (s : AppState) (st : Storage)
    (ctx : Context) (hn : s.currentNote ≠ "") (hc : s.context = some ctx) :
    (handleSaveNote now writeOk s st).1.bookmarks =
      { id := natToString now, note := s.currentNote, app := ctx.app,
        timestamp := ctx.timestamp } :: s.bookmarks := by
  cases writeOk <;> simp [handleSaveNote, hn, hc]

/-- Witness for C4 at a concrete state. -/
theorem C4_newest_first_witness :
    (handleSaveNote 7 true exS0 exSt0).1.bookmarks =
      { id := natToString 7, note := "n", app := "A", timestamp := "t1" } :: exS0.bookmarks :=
  C4_newest_first 7 true exS0 exSt0 ⟨"A", "t1"⟩ (by decide) (by decide)

/-- C5: an empty note is rejected by the guard — the save creates no
bookmark and leaves the component state and the storage (hence the
persisted blob) exactly as they were. -/
theorem C5_empty_note_noop (now : Nat) (writeOk : Bool) (s : AppState) (st : Storage)
    (h : s.currentNote = "") :
    handleSaveNote now writeOk s st = (s, st, SaveOutcome.noOp) := by
  simp [handleSaveNote, h]

/-- Witness for C5 at a concrete state. -/
theorem C5_empty_note_noop_witness :
    handleSaveNote 7 true (setNote "" exS0) exSt0 = (setNote "" exS0, exSt0, SaveOutcome.noOp) :=
  C5_empty_note_noop 7 true (setNote "" exS0) exSt0 (by decide)

/-- C6: bookmarks are never mutated or deleted — after any operation the
previous list is a suffix of the new one, so every bookmark present
before is present after with all four fields unchanged, and no operation
removes a bookmark. -/
theorem C6_append_only (op : Op) (s : AppState) (st : Storage) :
    s.bookmarks <:+ (applyOp op s st).1.bookmarks ∧
      ∀ b ∈ s.bookmarks, b ∈ (applyOp op s st).1.bookmarks := by
  have hsuf : s.bookmarks <:+ (applyOp op s st).1.bookmarks := by
    cases op with
    | buttonPress fg ts =>
      cases fg <;> simp [applyOp, onFloatingButtonPress]
    | requestPerm g =>
      cases g <;> simp [applyOp, requestPermission]
    | toggle g =>
      by_cases hr : s.isServiceRunning
      · simp [applyOp, toggleService, hr]
      · by_cases hp : s.hasPermission
        · simp [applyOp, toggleService, hr, hp]
        · cases g <;> simp [applyOp, toggleService, requestPermission, hr, hp]
    | save now writeOk =>
      by_cases hn : s.currentNote = ""
      · simp [applyOp, handleSaveNote, hn]
      · cases hc : s.context with
        | none => simp [applyOp, handleSaveNote, hn, hc]
        | some ctx => cases writeOk <;> simp [applyOp, handleSaveNote, hn, hc]
    | setNoteText t => simp [applyOp, setNote]
    | closeModal => simp [applyOp, closeModal]
  exact ⟨hsuf, fun b hb => hsuf.subset hb⟩

/-- C10: with no capture context the save is a no-op — no bookmark is
created and the component state (list, note text, modal) and the storage
(hence the persisted blob) are returned unchanged. -/
theorem C10_no_context_noop (now : Nat) (writeOk : Bool) (s : AppState) (st : Storage)
    (h : s.context = none) :
    handleSaveNote now writeOk s st = (s, st, SaveOutcome.noOp) := by
  by_cases hn : s.currentNote = "" <;> simp [handleSaveNote, hn, h]

/-- Witness for C10 at a concrete state. -/
theorem C10_no_context_noop_witness :
    handleSaveNote 7 true initState exSt0 = (initState, exSt0, SaveOutcome.noOp) :=
  C10_no_context_noop 7 true initState exSt0 (by decide)

/-- C1 as stated is false: a save whose persistence write fails still
prepends the bookmark to the in-memory list (it is set before the write
is awaited) while the blob keeps the old list, so the two are out of
sync after that mutation. -/
theorem C1_counterexample :
    synced exS0 exSt0 ∧
      ¬ synced (handleSaveNote 0 false exS0 exSt0).1 (handleSaveNote 0 false exS0 exSt0).2.1 := by
  constructor
  · decide
  · decide

/-- C1 (amended): after every operation whose persistence write succeeds
(every operation except a save whose write fails), the in-memory list
equals the deserialization of the blob stored under `'bookmarks'`. -/
theorem C1_sync_after_op (op : Op) (s : AppState) (st : Storage)
    (h : synced s st) (hw : ∀ now, op ≠ Op.save now false) :
    synced (applyOp op s st).1 (applyOp op s st).2.1 := by
  cases op with
  | buttonPress fg ts =>
    cases fg <;> simpa [applyOp, onFloatingButtonPress, synced] using h
  | requestPerm g =>
    cases g <;> simpa [applyOp, requestPermission, synced] using h
  | toggle g =>
    by_cases hr : s.isServiceRunning
    · simpa [applyOp, toggleService, hr, synced] using h
    · by_cases hp : s.hasPermission
      · simpa [applyOp, toggleService, hr, hp, synced] using h
      · cases g <;>
          simpa [applyOp, toggleService, requestPermission, hr, hp, synced] using h
  | save now writeOk =>
    cases writeOk with
    | false => exact absurd rfl (hw now)
    | true =>
      by_cases hn : s.currentNote = ""
      · simpa [applyOp, handleSaveNote, hn, synced] using h
      · cases hc : s.context with
        | none => simpa [applyOp, handleSaveNote, hn, hc, synced] using h
        | some ctx =>
          simp [applyOp, handleSaveNote, hn, hc, synced, getItem_setItem, decode_encode]
  | setNoteText t => simpa [applyOp, setNote, synced] using h
  | closeModal => simpa [applyOp, closeModal, synced] using h

/-- Witness for the amended C1 at a concrete synced state. -/
theorem C1_sync_after_op_witness :
    synced exS0 exSt0 ∧
      synced (applyOp (Op.setNoteText "x") exS0 exSt0).1
        (applyOp (Op.setNoteText "x") exS0 exSt0).2.1 :=
  ⟨by decide, C1_sync_after_op (Op.setNoteText "x") exS0 exSt0 (by decide)
    (fun _ h => nomatch h)⟩

/-- C2 as stated is false: when the persistence write fails during a
save, the failed operation does not leave the state unchanged — the new
bookmark has already been added to the in-memory list. -/
theorem C2_counterexample :
    (handleSaveNote 0 false exS0 exSt0).2.2 = SaveOutcome.writeFailed ∧
      (handleSaveNote 0 false exS0 exSt0).1.bookmarks ≠ exS0.bookmarks := by
  constructor
  · decide
  · decide

/-- C2 (amended): a failed foreground-app query changes nothing (only an
alert is shown); a failed persistence write leaves the storage, note
text, capture context and modal state unchanged (only an alert is
shown), but the new bookmark remains in the in-memory list. -/
theorem C2_failure_handling (s : AppState) (st : Storage) :
    (∀ ts, onFloatingButtonPress none ts s = s) ∧
      (∀ now ctx, s.currentNote ≠ "" → s.context = some ctx →
        (handleSaveNote now false s st).2.1 = st ∧
        (handleSaveNote now false s st).1.currentNote = s.currentNote ∧
        (handleSaveNote now false s st).1.context = s.context ∧
        (handleSaveNote now false s st).1.modalVisible = s.modalVisible ∧
        (handleSaveNote now false s st).2.2 = SaveOutcome.writeFailed ∧
        (handleSaveNote now false s st).1.bookmarks =
          { id := natToString now, note := s.currentNote, app := ctx.app,
            timestamp := ctx.timestamp } :: s.bookmarks) := by
  refine ⟨fun ts => rfl, fun now ctx hn hc => ?_⟩
  simp [handleSaveNote, hn, hc]

/-- Witness for the amended C2 at a concrete state. -/
theorem C2_failure_handling_witness :
    exS0.currentNote ≠ "" ∧ exS0.context = some ⟨"A", "t1"⟩ ∧
      (handleSaveNote 3 false exS0 exSt0).2.1 = exSt0 :=
  ⟨by decide, by decide,
    ((C2_failure_handling exS0 exSt0).2 3 ⟨"A", "t1"⟩ (by decide) (by decide)).1⟩

/-- C7: serialize/deserialize is the identity on bookmark lists; a
successful save stores the serialized whole list under the single key
`'bookmarks'`, and the startup load applied to the resulting storage
recovers exactly the in-memory list that was saved. -/
theorem C7_persist_roundtrip (l : List Bookmark) (s s2 : AppState) (st : Storage)
    (now : Nat) (ctx : Context) (hn : s.currentNote ≠ "") (hc : s.context = some ctx) :
    decodeBookmarks (encodeBookmarks l) = some l ∧
      getItem (handleSaveNote now true s st).2.1 "bookmarks" =
        some (encodeBookmarks ((handleSaveNote now true s st).1.bookmarks)) ∧
      (loadBookmarks (handleSaveNote now true s st).2.1 s2).bookmarks =
        (handleSaveNote now true s st).1.bookmarks := by
  refine ⟨decode_encode l, ?_, ?_⟩
  · simp [handleSaveNote, hn, hc, getItem_setItem]
  · simp [loadBookmarks, handleSaveNote, hn, hc, getItem_setItem,
      encodeBookmarks_ne_empty, decode_encode]

/-- Witness for C7 at a concrete state. -/
theorem C7_persist_roundtrip_witness :
    exS0.currentNote ≠ "" ∧
      (loadBookmarks (handleSaveNote 4 true exS0 exSt0).2.1 initState).bookmarks =
        (handleSaveNote 4 true exS0 exSt0).1.bookmarks :=
  ⟨by decide,
    (C7_persist_roundtrip [] exS0 initState exSt0 4 ⟨"A", "t1"⟩ (by decide) (by decide)).2.2⟩

/-- C8: the source-app name and timestamp of a saved bookmark are the
ones captured by the button-press event — after a press that recorded
app `a` and event-time string `ts`, a save at any later clock reading
`now` (the delay does not matter) stores a bookmark carrying exactly `a`
and `ts`. -/
theorem C8_capture_at_event (s : AppState) (st : Storage) (a ts text : String)
    (now : Nat) (writeOk : Bool) (htext : text ≠ "") :
    (handleSaveNote now writeOk
        (setNote text (onFloatingButtonPress (some a) ts s)) st).1.bookmarks.head? =
      some { id := natToString now, note := text, app := a, timestamp := ts } := by
  cases writeOk <;> simp [onFloatingButtonPress, setNote, handleSaveNote, htext]

/-- Witness for C8 at a concrete state. -/
theorem C8_capture_at_event_witness :
    ("x" : String) ≠ "" ∧
      (handleSaveNote 9 true
          (setNote "x" (onFloatingButtonPress (some "B") "t2" initState)) []).1.bookmarks.head? =
        some { id := natToString 9, note := "x", app := "B", timestamp := "t2" } :=
  ⟨by decide, C8_capture_at_event initState [] "B" "t2" "x" 9 true (by decide)⟩

/-- C9: the native start-service call is issued only when the tracked
permission flag is true (this holds in every state, hence in every
reachable one), and toggling with the service stopped and no permission
issues exactly a permission request, not a start. -/
theorem C9_start_requires_permission (op : Op) (s : AppState) (st : Storage) :
    (NativeCall.startFloatingWidgetService ∈ (applyOp op s st).2.2 →
      s.hasPermission = true) ∧
      (¬ s.isServiceRunning = true → ¬ s.hasPermission = true → ∀ g,
        (applyOp (Op.toggle g) s st).2.2 = [NativeCall.requestOverlayPermission]) := by
  constructor
  · intro hmem
    cases op with
    | buttonPress fg ts => simp [applyOp] at hmem
    | requestPerm g => simp [applyOp] at hmem
    | toggle g =>
      by_cases hr : s.isServiceRunning
      · simp [applyOp, toggleService, hr] at hmem
      · by_cases hp : s.hasPermission
        · exact hp
        · simp [applyOp, toggleService, hr, hp] at hmem
    | save now w => simp [applyOp] at hmem
    | setNoteText t => simp [applyOp] at hmem
    | closeModal => simp [applyOp] at hmem
  · intro hr hp g
    simp only [Bool.not_eq_true] at hr hp
    simp [applyOp, toggleService, hr, hp]

/-- Witness for C9: a state holding the permission with the service
stopped, where the toggle does issue the start call. -/
theorem C9_start_requires_permission_witness :
    NativeCall.startFloatingWidgetService ∈
        (applyOp (Op.toggle none) { exS0 with isServiceRunning := false } exSt0).2.2 ∧
      ({ exS0 with isServiceRunning := false } : AppState).hasPermission = true :=
  ⟨by decide, (C9_start_requires_permission (Op.toggle none)
      { exS0 with isServiceRunning := false } exSt0).1 (by decide)⟩

/-- C3 as stated is false: `Date.now().toString()` is not unique across
all save sequences — two saves within the same millisecond (clock
reading `5` twice) produce two distinct bookmarks with equal ids. -/
theorem C3_counterexample :
    (run exOps3 exS0 exSt0).1.bookmarks =
        [{ id := natToString 5, note := "b", app := "B", timestamp := "t2" },
          { id := natToString 5, note := "n", app := "A", timestamp := "t1" }] ∧
      ¬ (run exOps3 exS0 exSt0).1.bookmarks.Pairwise (fun a b => a.id ≠ b.id) := by
  constructor
  · decide
  · decide

/-- C3 (amended): identifiers are pairwise distinct for every sequence
of operations whose save clock readings are pairwise distinct, starting
from any state whose existing ids are pairwise distinct and differ from
the decimal strings of those readings. -/
theorem C3_unique_ids : ∀ (ops : List Op) (s : AppState) (st : Storage),
    (saveTimes ops).Nodup →
    s.bookmarks.Pairwise (fun a b => a.id ≠ b.id) →
    (∀ b ∈ s.bookmarks, ∀ t ∈ saveTimes ops, b.id ≠ natToString t) →
    (run ops s st).1.bookmarks.Pairwise (fun a b => a.id ≠ b.id) := by
  intro ops
  induction ops with
  | nil => intro s st _ hold _; exact hold
  | cons op ops ih =>
    intro s st hnodup hold hdisj
    cases op with
    | buttonPress fg ts =>
      cases fg with
      | none => exact ih s st hnodup hold hdisj
      | some a =>
        refine ih _ st hnodup ?_ ?_
        · simpa [onFloatingButtonPress] using hold
        · simpa [onFloatingButtonPress] using hdisj
    | requestPerm g =>
      cases g with
      | none => exact ih s st hnodup hold hdisj
      | some b =>
        refine ih _ st hnodup ?_ ?_
        · simpa [requestPermission] using hold
        · simpa [requestPermission] using hdisj
    | toggle g =>
      by_cases hr : s.isServiceRunning
      · refine ih _ st hnodup ?_ ?_
        · simpa [applyOp, toggleService, hr] using hold
        · simpa [applyOp, toggleService, hr] using hdisj
      · by_cases hp : s.hasPermission
        · refine ih _ st hnodup ?_ ?_
          · simpa [applyOp, toggleService, hr, hp] using hold
          · simpa [applyOp, toggleService, hr, hp] using hdisj
        · cases g with
          | none =>
            refine ih _ st hnodup ?_ ?_
            · simpa [applyOp, toggleService, requestPermission, hr, hp] using hold
            · simpa [applyOp, toggleService, requestPermission, hr, hp] using hdisj
          | some b =>
            refine ih _ st hnodup ?_ ?_
            · simpa [applyOp, toggleService, requestPermission, hr, hp] using hold
            · simpa [applyOp, toggleService, requestPermission, hr, hp] using hdisj
    | setNoteText t =>
      refine ih _ st hnodup ?_ ?_
      · simpa [setNote] using hold
      · simpa [setNote] using hdisj
    | closeModal =>
      refine ih _ st hnodup ?_ ?_
      · simpa [closeModal] using hold
      · simpa [closeModal] using hdisj
    | save now writeOk =>
      rw [show saveTimes (Op.save now writeOk :: ops) = now :: saveTimes ops from rfl]
        at hnodup hdisj
      obtain ⟨hnow, hnodup2⟩ := List.nodup_cons.mp hnodup
      have hdisj3 : ∀ b ∈ s.bookmarks, ∀ t ∈ saveTimes ops, b.id ≠ natToString t :=
        fun b hb t ht => hdisj b hb t (List.mem_cons_of_mem _ ht)
      simp only [run]
      by_cases hn : s.currentNote = ""
      · refine ih _ _ hnodup2 ?_ ?_
        · simpa [applyOp, handleSaveNote, hn] using hold
        · simpa [applyOp, handleSaveNote, hn] using hdisj3
      · cases hc : s.context with
        | none =>
          refine ih _ _ hnodup2 ?_ ?_
          · simpa [applyOp, handleSaveNote, hn, hc] using hold
          · simpa [applyOp, handleSaveNote, hn, hc] using hdisj3
        | some ctx =>
          have hold2 : List.Pairwise (fun a b => a.id ≠ b.id)
              ((⟨natToString now, s.currentNote, ctx.app, ctx.timestamp⟩ : Bookmark)
                :: s.bookmarks) := by
            refine List.pairwise_cons.mpr ⟨fun b hb => ?_, hold⟩
            exact (hdisj b hb now (List.mem_cons_self _ _)).symm
          have hdisj2 : ∀ b ∈ ((⟨natToString now, s.currentNote, ctx.app,
                ctx.timestamp⟩ : Bookmark) :: s.bookmarks),
              ∀ t ∈ saveTimes ops, b.id ≠ natToString t := by
            intro b hb t ht
            rcases List.mem_cons.mp hb with hb1 | hb2
            · subst hb1
              intro heq
              refine hnow ?_
              rw [natToString_injective heq]
              exact ht
            · exact hdisj3 b hb2 t ht
          cases writeOk with
          | true =>
            refine ih _ _ hnodup2 ?_ ?_
            · simpa [applyOp, handleSaveNote, hn, hc] using hold2
            · simpa [applyOp, handleSaveNote, hn, hc] using hdisj2
          | false =>
            refine ih _ _ hnodup2 ?_ ?_
            · simpa [applyOp, handleSaveNote, hn, hc] using hold2
            · simpa [applyOp, handleSaveNote, hn, hc] using hdisj2

/-- Witness for the amended C3: distinct clock readings `5` and `6`
yield pairwise-distinct ids. -/
theorem C3_unique_ids_witness :
    (saveTimes exOps4).Nodup ∧
      (run exOps4 exS0 exSt0).1.bookmarks.Pairwise (fun a b => a.id ≠ b.id) :=
  ⟨by decide, C3_unique_ids exOps4 exS0 exSt0 (by decide) (by decide) (by decide)⟩
